import Mathlib

/-!
Shallow embedding of the gstore repository, an in-memory retail store.

The repository contains two variants of the store implementation:

* Variant `V1` (files `unnamed/part_000`, `unnamed/part_002`, `main.go`):
  a `store` with `products` and `processedOrders` maps, an `addProducts`
  operation that assigns fresh random ids and timestamps, and a
  `sellProduct` operation that compares the amount paid with the total
  product cost.  There is no supported-type set in this variant.

* Variant `V2` (file `store.go` together with the type file
  `unnamed/part_001`): a `store` with an additional `supportedProducts`
  set, an `updateProduct` operation that inserts caller-identified
  products, a `sellProduct` operation that does not compare the amount
  paid with the total cost, and `updateProductsSupported`.

Modelling conventions:

* Go maps become association lists; Go map iteration order is
  unspecified, and the association-list order is one faithful
  linearization of it.  Insertion replaces any previous binding.
* `float64` prices and amounts become `ℚ`; `time.Time` becomes `Int`.
* The fixed-size random ids (`[16]byte`, `[32]byte` arrays) become
  `Nat`, with `0` playing the role of the all-zero id; `crypto/rand`
  id generation becomes an explicit id-supply parameter.
* Go interface values cannot be `nil` in the embedding, so the
  `product == nil` and `order == nil` guard branches of the source are
  unrepresentable and elided.
* Source functions that mutate the store return the new store paired
  with the `error` result, so that "the store is unchanged" is a
  provable statement rather than a modelling artifact.
-/

namespace GStore

/-- Tests whether an `Except` result is an error. -/
def isErr {ε α : Type} : Except ε α → Bool
  | .error _ => true
  | .ok _ => false

section AListMap

variable {α β : Type} [DecidableEq α]

/-- Association-list model of a Go map: lookup of a key. -/
def lookupA (k : α) : List (α × β) → Option β
  | [] => none
  | kv :: rest => if kv.1 = k then some kv.2 else lookupA k rest

/-- Association-list model of Go `delete(m, k)`. -/
def eraseA (k : α) (m : List (α × β)) : List (α × β) :=
  m.filter (fun kv => kv.1 ≠ k)

/-- Association-list model of Go `m[k] = v` (replaces any old binding). -/
def insertA (k : α) (v : β) (m : List (α × β)) : List (α × β) :=
  (k, v) :: eraseA k m

/-- Erasing a list of keys in order, as in a Go `for ... delete` loop. -/
def eraseKeys : List α → List (α × β) → List (α × β)
  | [], m => m
  | k :: ks, m => eraseKeys ks (eraseA k m)

end AListMap

/-- Identity of a product (`[16]byte` resp. `[32]byte` in the source,
modelled as `Nat` with `0` as the all-zero id). -/
abbrev productID := Nat

/-- Identity of an order (`[12]byte` resp. `[32]byte` in the source). -/
abbrev orderID := Nat

/-- The all-zero product id (`var zeroProductID productID`). -/
def zeroProductID : productID := 0

/-- The all-zero order id (`var zeroOrderID orderID`). -/
def zeroOrderID : orderID := 0

namespace V1

/-- The `product` struct of `unnamed/part_002`. -/
structure product where
  id : productID
  name : String
  price : ℚ
  productType : String
  category : String
  description : String
  images : List String
  specifications : List (String × List String)
  lastUpdated : Option Int
  createdAt : Option Int
  deriving DecidableEq, Repr

/-- Method `IsValid` of `*product` in `unnamed/part_002`. -/
def product.IsValid (p : product) : Bool :=
  decide (p.name ≠ "") && decide (p.productType ≠ "") &&
    decide (p.description ≠ "") && decide (p.price > 0) &&
    decide (p.images ≠ []) && decide (p.specifications ≠ [])

/-- A value of the `Product` interface of `unnamed/part_002`: either a
plain `*product` or a `*car` (which embeds a `*product` and adds
color/make/model/year fields). -/
inductive Product where
  | base (p : product)
  | car (p : product) (color make model year : String)
  deriving DecidableEq, Repr

/-- Method `Product`: the underlying `*product`. -/
def Product.toProduct : Product → product
  | .base p => p
  | .car p _ _ _ _ => p

/-- Method `ID`. -/
def Product.ID (p : Product) : productID := p.toProduct.id

/-- Method `Type`. -/
def Product.ptype (p : Product) : String := p.toProduct.productType

/-- Method `Price`. -/
def Product.Price (p : Product) : ℚ := p.toProduct.price

/-- Method `IsValid`: the `car` override additionally requires
non-empty make, model and color. -/
def Product.IsValid : Product → Bool
  | .base p => p.IsValid
  | .car p color make model _ =>
      p.IsValid && decide (make ≠ "") && decide (model ≠ "") &&
        decide (color ≠ "")

/-- Replacement of the underlying `*product` (used to model the
in-place mutation performed by `addProducts`). -/
def Product.withProduct : Product → product → Product
  | .base _, q => .base q
  | .car _ color make model year, q => .car q color make model year

/-- The `order` struct of `unnamed/part_002` (a buy request). -/
structure order where
  id : orderID
  name : String
  amountPaid : ℚ
  shippingAddress : String
  products : List Product
  deriving DecidableEq, Repr

/-- The `store` struct of `unnamed/part_000`. -/
structure store where
  name : String
  products : List (productID × Product)
  processedOrders : List (orderID × order)
  deriving DecidableEq, Repr

/-- Function `newStore` of `unnamed/part_000`. -/
def newStore (name : String) : store :=
  { name := name, products := [], processedOrders := [] }

/-- The validation loop of `addProducts`: returns the first validation
error, if any.  (The `product == nil` branch is unrepresentable.) -/
def validateProducts : List Product → Except String Unit
  | [] => .ok ()
  | p :: rest =>
      if p.IsValid then validateProducts rest
      else .error "product is not valid or missing required fields"

/-- The in-place mutation `addProducts` performs on one product: the
underlying `*product` gets the generated id and has both timestamps
set to `now`. -/
def stampProduct (newID : productID) (now : Int) (p : Product) : Product :=
  p.withProduct
    { p.toProduct with
      id := newID, createdAt := some now, lastUpdated := some now }

/-- The mutation loop of `addProducts`: product `i` of the batch gets
the generated id `gen i`, its `createdAt` and `lastUpdated` fields are
set to `now`, and it is inserted into the in-stock map under its new
id.  Returns the updated map and the collected ids. -/
def addLoop (gen : Nat → productID) (now : Int) :
    Nat → List Product → List (productID × Product) →
      List (productID × Product) × List productID
  | _, [], m => (m, [])
  | i, p :: rest, m =>
      let p' := stampProduct (gen i) now p
      let r := addLoop gen now (i + 1) rest (insertA p'.ID p' m)
      (r.1, p'.ID :: r.2)

/-- Method `addProducts` of `*store` in `unnamed/part_000`.  The `crypto/rand`
id source is modelled by the supply `gen`, `time.Now()` by `now`. -/
def addProducts (gen : Nat → productID) (now : Int) (products : List Product)
    (s : store) : store × Except String (List productID) :=
  if products.length = 0 then (s, .error "provide one or more products")
  else
    match validateProducts products with
    | .error e => (s, .error e)
    | .ok _ =>
        ({ s with products := (addLoop gen now 0 products s.products).1 },
          .ok (addLoop gen now 0 products s.products).2)

/-- The per-product validation loop of `sellProduct`: for each product,
in order, checks membership in the in-stock map and validity, and
accumulates the total product cost. -/
def checkOrderProducts (m : List (productID × Product)) :
    List Product → Except String ℚ
  | [] => .ok 0
  | p :: rest =>
      if lookupA p.ID m = none then .error "product does not exist"
      else if ¬p.IsValid then .error "product is not valid"
      else
        match checkOrderProducts m rest with
        | .error e => .error e
        | .ok t => .ok (p.Price + t)

/-- Method `sellProduct` of `*store` in `unnamed/part_000`.  The generated order
id is the supply `genOID`. -/
def sellProduct (genOID : orderID) (o : order) (s : store) :
    store × Except String orderID :=
  if o.shippingAddress = "" ∨ o.amountPaid ≤ 0 ∨ o.name = "" ∨
      o.products.length = 0 then
    (s, .error "order is missing required fields")
  else
    match checkOrderProducts s.products o.products with
    | .error e => (s, .error e)
    | .ok totalProductCost =>
        if o.amountPaid < totalProductCost then
          (s, .error "order amount paid is not enough")
        else
          ({ s with
              products := eraseKeys (o.products.map Product.ID) s.products,
              processedOrders :=
                insertA genOID { o with id := genOID } s.processedOrders },
            .ok genOID)

/-- The loop body shared by both variants of `availableProducts`:
collect the in-stock products matching the filter together with their
total cost (the Go loop appends and adds in map-iteration order). -/
def availLoop (keep : Product → Bool) :
    List (productID × Product) → List Product × ℚ
  | [] => ([], 0)
  | kv :: rest =>
      let r := availLoop keep rest
      if keep kv.2 then (kv.2 :: r.1, r.2 + kv.2.Price) else r

/-- Method `availableProducts` of `*store` in `unnamed/part_000`. -/
def availableProducts (productType : String) (s : store) :
    List Product × ℚ :=
  if productType = "" then availLoop (fun _ => true) s.products
  else availLoop (fun p => p.ptype = productType) s.products

/-- The inner loop of `soldProducts` over one order's products. -/
def soldLoopProducts (keep : Product → Bool) :
    List Product → List Product × ℚ
  | [] => ([], 0)
  | p :: rest =>
      let r := soldLoopProducts keep rest
      if keep p then (p :: r.1, r.2 + p.Price) else r

/-- The outer loop of `soldProducts` over the processed orders. -/
def soldLoop (keep : Product → Bool) :
    List (orderID × order) → List Product × ℚ
  | [] => ([], 0)
  | kv :: rest =>
      let inner := soldLoopProducts keep kv.2.products
      let r := soldLoop keep rest
      (inner.1 ++ r.1, inner.2 + r.2)

/-- Method `soldProducts` of `*store` in `unnamed/part_000`. -/
def soldProducts (productType : String) (s : store) : List Product × ℚ :=
  if productType = "" then soldLoop (fun _ => true) s.processedOrders
  else soldLoop (fun p => p.ptype = productType) s.processedOrders

end V1

/-- The deletion loop shared by both variants of `deleteProducts`:
delete each listed id that is present and count the deletions. -/
def deleteLoop {β : Type} :
    List productID → List (productID × β) → Nat →
      List (productID × β) × Nat
  | [], m, deleted => (m, deleted)
  | id :: rest, m, deleted =>
      if (lookupA id m).isSome then
        deleteLoop rest (eraseA id m) (deleted + 1)
      else
        deleteLoop rest m deleted

/-- Method `deleteProducts` of `*store` in `unnamed/part_000`. -/
def V1.deleteProducts (productIDs : List productID) (s : V1.store) :
    V1.store × Except String Nat :=
  if productIDs.length = 0 then
    (s, .error "provide one or more product IDs")
  else
    ({ s with products := (deleteLoop productIDs s.products 0).1 },
      .ok (deleteLoop productIDs s.products 0).2)

namespace V2

/-- The `product` struct of `unnamed/part_001`. -/
structure product where
  id : productID
  name : String
  price : ℚ
  productType : String
  category : String
  lastUpdated : Option Int
  createdAt : Option Int
  description : String
  images : List String
  specifications : List (String × List String)
  deriving DecidableEq, Repr

/-- Method `Validate` of `*product` in `unnamed/part_001` (`now` is the value of
`time.Now()` taken inside the method; `!t.After(now)` is `t ≤ now`). -/
def product.Validate (now : Int) (p : product) : Bool :=
  decide (p.id ≠ zeroProductID) && decide (p.price > 0) &&
    decide (p.name ≠ "") && decide (p.images ≠ []) &&
    (match p.createdAt with | some c => decide (c ≤ now) | none => false) &&
    (match p.lastUpdated with | some l => decide (l ≤ now) | none => false) &&
    decide (p.productType ≠ "") && decide (p.specifications ≠ [])

/-- A value of the `Product` interface of `unnamed/part_001`: a plain
`*product`, a `*car`, or a `*carAccessory`. -/
inductive Product where
  | base (p : product)
  | car (p : product) (color make model : String)
  | accessory (p : product) (specifications : List (String × List String))
  deriving DecidableEq, Repr

/-- The underlying `*product`. -/
def Product.toProduct : Product → product
  | .base p => p
  | .car p _ _ _ => p
  | .accessory p _ => p

/-- Method `ID`. -/
def Product.ID (p : Product) : productID := p.toProduct.id

/-- Method `Type`. -/
def Product.ptype (p : Product) : String := p.toProduct.productType

/-- Method `Price`. -/
def Product.Price (p : Product) : ℚ := p.toProduct.price

/-- Method `Validate`: the `car` override additionally requires
non-empty make, model and color; the `carAccessory` override just
validates the embedded product. -/
def Product.Validate (now : Int) : Product → Bool
  | .base p => p.Validate now
  | .car p color make model =>
      p.Validate now && decide (make ≠ "") && decide (model ≠ "") &&
        decide (color ≠ "")
  | .accessory p _ => p.Validate now

/-- The `order` struct of `unnamed/part_001` (with the embedded
`buyer` fields inlined). -/
structure order where
  id : orderID
  name : String
  amountPaid : ℚ
  address : String
  products : List Product
  deriving DecidableEq, Repr

/-- The `store` struct of `store.go`. -/
structure store where
  name : String
  supportedProducts : List (String × Bool)
  productsInStock : List (productID × Product)
  processedOrders : List (orderID × order)
  deriving DecidableEq, Repr

/-- Function `newStore` of `store.go`: every constructor-listed product type is
marked supported. -/
def newStore (name : String) (supportedProducts : List String) : store :=
  { name := name,
    supportedProducts :=
      supportedProducts.foldl (fun m t => insertA t true m) [],
    productsInStock := [],
    processedOrders := [] }

/-- The validation loop of `updateProduct`: the product type must be
present and enabled in the supported set, and the product valid. -/
def validateUpdate (sup : List (String × Bool)) (now : Int) :
    List Product → Except String Unit
  | [] => .ok ()
  | p :: rest =>
      if lookupA p.ptype sup ≠ some true then
        .error "product is not supported"
      else if ¬p.Validate now then
        .error "product is not valid or missing required fields"
      else validateUpdate sup now rest

/-- Method `updateProduct` of `*store` in `store.go`: validates every product,
then inserts each under its caller-supplied id. -/
def updateProduct (now : Int) (products : List Product) (s : store) :
    store × Except String Unit :=
  if products.length = 0 then (s, .error "provide one or more products")
  else
    match validateUpdate s.supportedProducts now products with
    | .error e => (s, .error e)
    | .ok _ =>
        ({ s with
            productsInStock :=
              products.foldl (fun m p => insertA p.ID p m)
                s.productsInStock },
          .ok ())

/-- The per-product validation loop of `sellProduct` in `store.go`:
supported type, membership in stock, validity — no price is computed
in this variant. -/
def checkSellProducts (s : store) (now : Int) :
    List Product → Except String Unit
  | [] => .ok ()
  | p :: rest =>
      if lookupA p.ptype s.supportedProducts ≠ some true then
        .error "product is not supported"
      else if lookupA p.ID s.productsInStock = none then
        .error "product does not exist"
      else if ¬p.Validate now then
        .error "product is not valid, please select another"
      else checkSellProducts s now rest

/-- Method `sellProduct` of `*store` in `store.go`: note that the amount paid is
only required to be positive; it is never compared with the total
price of the ordered products.  The order id comes from the caller. -/
def sellProduct (now : Int) (o : order) (s : store) :
    store × Except String Unit :=
  if o.id = zeroOrderID ∨ o.address = "" ∨ o.amountPaid ≤ 0 ∨
      o.name = "" ∨ o.products.length = 0 then
    (s, .error "order is missing required fields")
  else
    match checkSellProducts s now o.products with
    | .error e => (s, .error e)
    | .ok _ =>
        ({ s with
            productsInStock :=
              eraseKeys (o.products.map Product.ID) s.productsInStock,
            processedOrders := insertA o.id o s.processedOrders },
          .ok ())

/-- The collection loop of `availableProducts` in `store.go`. -/
def availLoop (keep : Product → Bool) :
    List (productID × Product) → List Product × ℚ
  | [] => ([], 0)
  | kv :: rest =>
      let r := availLoop keep rest
      if keep kv.2 then (kv.2 :: r.1, r.2 + kv.2.Price) else r

/-- Method `availableProducts` of `*store` in `store.go`: a non-empty product
type must be present and enabled in the supported set. -/
def availableProducts (productType : String) (s : store) :
    Except String (List Product × ℚ) :=
  if productType = "" then .ok (availLoop (fun _ => true) s.productsInStock)
  else if lookupA productType s.supportedProducts ≠ some true then
    .error "product type is not supported"
  else .ok (availLoop (fun p => p.ptype = productType) s.productsInStock)

/-- The inner loop of `soldProducts` over one order's products. -/
def soldLoopProducts (keep : Product → Bool) :
    List Product → List Product × ℚ
  | [] => ([], 0)
  | p :: rest =>
      let r := soldLoopProducts keep rest
      if keep p then (p :: r.1, r.2 + p.Price) else r

/-- The outer loop of `soldProducts` over the processed orders. -/
def soldLoop (keep : Product → Bool) :
    List (orderID × order) → List Product × ℚ
  | [] => ([], 0)
  | kv :: rest =>
      let inner := soldLoopProducts keep kv.2.products
      let r := soldLoop keep rest
      (inner.1 ++ r.1, inner.2 + r.2)

/-- Method `soldProducts` of `*store` in `store.go`: a non-empty product type
need only be present in the supported map (its flag is not read). -/
def soldProducts (productType : String) (s : store) :
    Except String (List Product × ℚ) :=
  if productType = "" then .ok (soldLoop (fun _ => true) s.processedOrders)
  else if lookupA productType s.supportedProducts = none then
    .error "there is no such product type"
  else .ok (soldLoop (fun p => p.ptype = productType) s.processedOrders)

/-- Method `inStock` of `*store` in `store.go`: an unsupported (absent or
disabled) product type is reported as not in stock. -/
def inStock (productType : String) (s : store) : Bool :=
  if lookupA productType s.supportedProducts ≠ some true then false
  else s.productsInStock.any (fun kv => kv.2.ptype = productType)

/-- Method `updateProductsSupported` of `*store` in `store.go`. -/
def updateProductsSupported (productType : String) (enable : Bool)
    (s : store) : store × Except String Unit :=
  if ¬enable ∧ lookupA productType s.supportedProducts = none then
    (s, .error "cannot disable non-existent product type")
  else
    ({ s with
        supportedProducts := insertA productType enable s.supportedProducts },
      .ok ())

/-- Method `deleteProducts` of `*store` in `store.go` (same logic as in
`unnamed/part_000`). -/
def deleteProducts (productIDs : List productID) (s : store) :
    store × Except String Nat :=
  if productIDs.length = 0 then
    (s, .error "provide one or more product IDs")
  else
    ({ s with productsInStock := (deleteLoop productIDs s.productsInStock 0).1 },
      .ok (deleteLoop productIDs s.productsInStock 0).2)

/-- One state-mutating call of the `store.go` API (the read-only
queries `product`, `availableProducts`, `soldProducts`, `orders`,
`inStock` and `allSupportedProducts` do not touch the state and are
pure functions of it in this embedding). -/
inductive StoreOp where
  | update (now : Int) (products : List Product)
  | sell (now : Int) (o : order)
  | del (ids : List productID)
  | setSupported (t : String) (enable : Bool)
  deriving DecidableEq, Repr

/-- The state reached after one mutating call. -/
def applyOp (s : store) : StoreOp → store
  | .update now ps => (updateProduct now ps s).1
  | .sell now o => (sellProduct now o s).1
  | .del ids => (deleteProducts ids s).1
  | .setSupported t b => (updateProductsSupported t b s).1

/-- The state reached after a sequence of mutating calls. -/
def runOps (s : store) : List StoreOp → store
  | [] => s
  | op :: ops => runOps (applyOp s op) ops

/-- Freshness of the caller-chosen order ids along a run: every `sell`
call presents an order whose id is not yet a key of the
processed-orders map (this is how `main.go` behaves, drawing ids from
`crypto/rand`). -/
def SellIDsFresh : store → List StoreOp → Prop
  | _, [] => True
  | s, op :: ops =>
      (match op with
       | .sell _ o => lookupA o.id s.processedOrders = none
       | _ => True) ∧ SellIDsFresh (applyOp s op) ops

end V2

/-! Concrete sample values used by witnesses and counterexamples. -/

/-- A concrete valid variant-`V1` product. -/
def sampleA (i : productID) (t : String) (price : ℚ) : V1.Product :=
  V1.Product.base
    { id := i, name := "Item", price := price, productType := t,
      category := "cat", description := "desc", images := ["img"],
      specifications := [("k", ["v"])], lastUpdated := some 0,
      createdAt := some 0 }

/-- A concrete valid variant-`V2` product. -/
def sampleB (i : productID) (t : String) (price : ℚ) : V2.Product :=
  V2.Product.base
    { id := i, name := "Item", price := price, productType := t,
      category := "cat", lastUpdated := some 0, createdAt := some 0,
      description := "desc", images := ["img"],
      specifications := [("k", ["v"])] }

/-- A variant-`V2` store with one supported type and one product in
stock. -/
def cexStoreB : V2.store :=
  { name := "S", supportedProducts := [("Car", true)],
    productsInStock := [(1, sampleB 1 "Car" 100)], processedOrders := [] }

/-- A variant-`V2` order paying 1 for a product priced 100. -/
def cexUnderpaidOrder : V2.order :=
  { id := 5, name := "Buyer", amountPaid := 1, address := "Addr",
    products := [sampleB 1 "Car" 100] }

/-- A variant-`V1` store with one product in stock. -/
def witSaleStore : V1.store :=
  { name := "S", products := [(1, sampleA 1 "Car" 100)],
    processedOrders := [] }

/-- A variant-`V1` order paying the exact total for the stocked
product. -/
def witSaleOrder : V1.order :=
  { id := 0, name := "Buyer", amountPaid := 100, shippingAddress := "Addr",
    products := [sampleA 1 "Car" 100] }

/-- A variant-`V1` order paying 1 for a product priced 100. -/
def witUnderpaidOrder : V1.order :=
  { id := 0, name := "Buyer", amountPaid := 1, shippingAddress := "Addr",
    products := [sampleA 1 "Car" 100] }

/-- A first variant-`V2` order with id 7 buying product 1. -/
def cexOrder1 : V2.order :=
  { id := 7, name := "Buyer1", amountPaid := 200, address := "Addr",
    products := [sampleB 1 "Car" 100] }

/-- A second variant-`V2` order reusing id 7, buying product 2. -/
def cexOrder2 : V2.order :=
  { id := 7, name := "Buyer2", amountPaid := 60, address := "Addr",
    products := [sampleB 2 "Car" 50] }

/-- A run that records `cexOrder1` under order id 7. -/
def cexOps1 : List V2.StoreOp :=
  [.update 0 [sampleB 1 "Car" 100], .sell 0 cexOrder1]

/-- The same run continued with a second sale reusing order id 7. -/
def cexOps2 : List V2.StoreOp :=
  cexOps1 ++ [.update 0 [sampleB 2 "Car" 50], .sell 0 cexOrder2]

/-- A variant-`V2` store whose "Car" type is present but disabled
while a "Car" product is still in stock (as after enabling, adding and
then disabling). -/
def disabledStoreB : V2.store :=
  { name := "S", supportedProducts := [("Car", false)],
    productsInStock := [(1, sampleB 1 "Car" 100)], processedOrders := [] }

/-! Verification. -/

section AListLemmas

variable {α β : Type} [DecidableEq α]

theorem lookupA_eraseA (k k' : α) (m : List (α × β)) :
    lookupA k' (eraseA k m) = if k' = k then none else lookupA k' m := by
  induction m with
  | nil => simp [eraseA, lookupA]
  | cons kv rest ih =>
    by_cases hk : kv.1 = k
    · rw [show eraseA k (kv :: rest) = eraseA k rest by
        simp [eraseA, List.filter_cons, hk], ih]
      by_cases hk' : k' = k
      · simp [hk']
      · have hne : kv.1 ≠ k' := fun h => hk' (h ▸ hk)
        simp [lookupA, hne, hk']
    · rw [show eraseA k (kv :: rest) = kv :: eraseA k rest by
        simp [eraseA, List.filter_cons, hk]]
      by_cases hkv : kv.1 = k'
      · have hk' : k' ≠ k := fun h => hk (hkv.trans h)
        simp [lookupA, hkv, hk']
      · simp [lookupA, hkv, ih]

theorem lookupA_insertA (k k' : α) (v : β) (m : List (α × β)) :
    lookupA k' (insertA k v m) = if k' = k then some v else lookupA k' m := by
  by_cases h : k' = k
  · subst h; simp [insertA, lookupA]
  · have hne : k ≠ k' := fun hh => h hh.symm
    simp [insertA, lookupA, hne, h, lookupA_eraseA]

theorem lookupA_eq_none_iff (k : α) (m : List (α × β)) :
    lookupA k m = none ↔ ∀ kv ∈ m, kv.1 ≠ k := by
  induction m with
  | nil => simp [lookupA]
  | cons kv rest ih =>
    by_cases h : kv.1 = k <;> simp [lookupA, h, ih]

theorem eraseA_of_lookupA_none (k : α) (m : List (α × β))
    (h : lookupA k m = none) : eraseA k m = m := by
  rw [lookupA_eq_none_iff] at h
  unfold eraseA
  rw [List.filter_eq_self]
  intro kv hkv
  simpa using h kv hkv

theorem lookupA_eraseKeys (ks : List α) (m : List (α × β)) (k : α) :
    lookupA k (eraseKeys ks m) = if k ∈ ks then none else lookupA k m := by
  induction ks generalizing m with
  | nil => simp [eraseKeys]
  | cons k0 ks ih =>
    show lookupA k (eraseKeys ks (eraseA k0 m)) = _
    rw [ih, lookupA_eraseA]
    by_cases h1 : k ∈ ks <;> by_cases h2 : k = k0 <;> simp [h1, h2]

end AListLemmas

/-! Helper lemmas about the deletion loop shared by both variants. -/

section DeleteLemmas

variable {β : Type}

theorem eraseA_cons_of_eq {k : productID} {kv : productID × β}
    (rest : List (productID × β)) (h : kv.1 = k) :
    eraseA k (kv :: rest) = eraseA k rest := by
  simp [eraseA, List.filter_cons, h]

theorem eraseA_cons_of_ne {k : productID} {kv : productID × β}
    (rest : List (productID × β)) (h : ¬kv.1 = k) :
    eraseA k (kv :: rest) = kv :: eraseA k rest := by
  simp [eraseA, List.filter_cons, h]

theorem nodup_keys_eraseA (k : productID) (m : List (productID × β))
    (h : (m.map Prod.fst).Nodup) :
    ((eraseA k m).map Prod.fst).Nodup :=
  h.sublist (List.Sublist.map Prod.fst (List.filter_sublist m))

theorem length_eraseA_add_one (k : productID) (m : List (productID × β))
    (hnd : (m.map Prod.fst).Nodup) (h : (lookupA k m).isSome) :
    (eraseA k m).length + 1 = m.length := by
  induction m with
  | nil => simp [lookupA] at h
  | cons kv rest ih =>
    simp only [List.map_cons, List.nodup_cons] at hnd
    by_cases hk : kv.1 = k
    · have hnone : lookupA k rest = none := by
        rw [lookupA_eq_none_iff]
        intro kv2 hkv2 heq
        exact hnd.1 (hk ▸ heq ▸ List.mem_map_of_mem Prod.fst hkv2)
      rw [eraseA_cons_of_eq rest hk, eraseA_of_lookupA_none _ _ hnone]
      simp
    · have h' : (lookupA k rest).isSome := by simpa [lookupA, hk] using h
      rw [eraseA_cons_of_ne rest hk]
      simp [ih hnd.2 h']

theorem length_eraseKeys_le (ks : List productID) (m : List (productID × β)) :
    (eraseKeys ks m).length ≤ m.length := by
  induction ks generalizing m with
  | nil => simp [eraseKeys]
  | cons k ks ih =>
    calc (eraseKeys (k :: ks) m).length
        = (eraseKeys ks (eraseA k m)).length := rfl
      _ ≤ (eraseA k m).length := ih (eraseA k m)
      _ ≤ m.length := List.length_filter_le _ m

theorem deleteLoop_fst (ids : List productID) :
    ∀ (m : List (productID × β)) (d : Nat),
      (deleteLoop ids m d).1 = eraseKeys ids m := by
  induction ids with
  | nil => intro m d; rfl
  | cons id rest ih =>
    intro m d
    by_cases h : (lookupA id m).isSome
    · simp only [deleteLoop, h, if_true]
      exact ih (eraseA id m) (d + 1)
    · have hnone : lookupA id m = none := by
        cases hc : lookupA id m with
        | none => rfl
        | some v => rw [hc] at h; simp at h
      simp only [deleteLoop, hnone, Option.isSome_none, Bool.false_eq_true,
        if_false]
      rw [ih m d]
      show eraseKeys rest m = eraseKeys rest (eraseA id m)
      rw [eraseA_of_lookupA_none _ _ hnone]

theorem deleteLoop_snd (ids : List productID) :
    ∀ (m : List (productID × β)) (d : Nat), (m.map Prod.fst).Nodup →
      (deleteLoop ids m d).2 = d + (m.length - (eraseKeys ids m).length) := by
  induction ids with
  | nil => intro m d _; simp [deleteLoop, eraseKeys]
  | cons id rest ih =>
    intro m d hnd
    by_cases h : (lookupA id m).isSome
    · have hlen := length_eraseA_add_one id m hnd h
      have hle := length_eraseKeys_le rest (eraseA id m)
      simp only [deleteLoop, h, if_true]
      rw [ih (eraseA id m) (d + 1) (nodup_keys_eraseA id m hnd)]
      show _ = d + (m.length - (eraseKeys rest (eraseA id m)).length)
      omega
    · have hnone : lookupA id m = none := by
        cases hc : lookupA id m with
        | none => rfl
        | some v => rw [hc] at h; simp at h
      simp only [deleteLoop, hnone, Option.isSome_none, Bool.false_eq_true,
        if_false]
      rw [ih m d hnd]
      show _ = d + (m.length - (eraseKeys rest (eraseA id m)).length)
      rw [eraseA_of_lookupA_none _ _ hnone]

end DeleteLemmas

/-- C7: for a non-empty list of product identities, `deleteProducts`
(in both variants) removes from stock exactly the listed identities
that are present, leaves every other key of the in-stock map unchanged,
returns `ok` with the number of products actually removed even when
some listed identities are absent, and leaves the processed orders
untouched; with an empty identity list it returns an error and removes
nothing. -/
theorem claim7_deleteProducts :
    (∀ (ids : List productID) (s : V1.store), ids ≠ [] →
      (s.products.map Prod.fst).Nodup →
        (V1.deleteProducts ids s).2 =
          .ok (s.products.length -
            (V1.deleteProducts ids s).1.products.length) ∧
        (∀ k, k ∈ ids →
          lookupA k (V1.deleteProducts ids s).1.products = none) ∧
        (∀ k, k ∉ ids →
          lookupA k (V1.deleteProducts ids s).1.products =
            lookupA k s.products) ∧
        (V1.deleteProducts ids s).1.processedOrders = s.processedOrders ∧
        (V1.deleteProducts ids s).1.name = s.name) ∧
    (∀ s : V1.store,
      V1.deleteProducts [] s = (s, .error "provide one or more product IDs")) ∧
    (∀ (ids : List productID) (s : V2.store), ids ≠ [] →
      (s.productsInStock.map Prod.fst).Nodup →
        (V2.deleteProducts ids s).2 =
          .ok (s.productsInStock.length -
            (V2.deleteProducts ids s).1.productsInStock.length) ∧
        (∀ k, k ∈ ids →
          lookupA k (V2.deleteProducts ids s).1.productsInStock = none) ∧
        (∀ k, k ∉ ids →
          lookupA k (V2.deleteProducts ids s).1.productsInStock =
            lookupA k s.productsInStock) ∧
        (V2.deleteProducts ids s).1.processedOrders = s.processedOrders ∧
        (V2.deleteProducts ids s).1.supportedProducts =
          s.supportedProducts) ∧
    (∀ s : V2.store,
      V2.deleteProducts [] s = (s, .error "provide one or more product IDs")) := by
  refine ⟨?_, ?_, ?_, ?_⟩
  · intro ids s hne hnd
    have hlen : ¬ids.length = 0 := by simpa [List.length_eq_zero] using hne
    unfold V1.deleteProducts
    rw [if_neg hlen]
    refine ⟨?_, ?_, ?_, rfl, rfl⟩
    · rw [deleteLoop_snd ids s.products 0 hnd, deleteLoop_fst]
      simp
    · intro k hk
      rw [deleteLoop_fst, lookupA_eraseKeys, if_pos hk]
    · intro k hk
      rw [deleteLoop_fst, lookupA_eraseKeys, if_neg hk]
  · intro s
    rfl
  · intro ids s hne hnd
    have hlen : ¬ids.length = 0 := by simpa [List.length_eq_zero] using hne
    unfold V2.deleteProducts
    rw [if_neg hlen]
    refine ⟨?_, ?_, ?_, rfl, rfl⟩
    · rw [deleteLoop_snd ids s.productsInStock 0 hnd, deleteLoop_fst]
      simp
    · intro k hk
      rw [deleteLoop_fst, lookupA_eraseKeys, if_pos hk]
    · intro k hk
      rw [deleteLoop_fst, lookupA_eraseKeys, if_neg hk]
  · intro s
    rfl

/-! Helper lemmas about the sell-validation loops. -/

theorem checkOrderProducts_ok (m : List (productID × V1.Product)) :
    ∀ (ps : List V1.Product) (t : ℚ),
      V1.checkOrderProducts m ps = .ok t →
        (∀ p ∈ ps, lookupA p.ID m ≠ none ∧ p.IsValid = true) ∧
        t = (ps.map V1.Product.Price).sum := by
  intro ps
  induction ps with
  | nil =>
    intro t h
    simp only [V1.checkOrderProducts, Except.ok.injEq] at h
    subst h
    exact ⟨by simp, by simp⟩
  | cons p rest ih =>
    intro t h
    simp only [V1.checkOrderProducts] at h
    split at h
    · exact Except.noConfusion h
    · split at h
      · exact Except.noConfusion h
      · rename_i hmem hval
        cases hchk : V1.checkOrderProducts m rest with
        | error e => rw [hchk] at h; exact Except.noConfusion h
        | ok t0 =>
          rw [hchk] at h
          simp only [Except.ok.injEq] at h
          subst h
          obtain ⟨hall, hsum⟩ := ih t0 hchk
          refine ⟨?_, ?_⟩
          · intro q hq
            rcases List.mem_cons.mp hq with rfl | hq
            · exact ⟨hmem, not_not.mp hval⟩
            · exact hall q hq
          · simp [hsum]

theorem checkSellProducts_ok (s : V2.store) (now : Int) :
    ∀ ps, V2.checkSellProducts s now ps = .ok () →
      ∀ p ∈ ps, lookupA p.ptype s.supportedProducts = some true ∧
        lookupA p.ID s.productsInStock ≠ none ∧ p.Validate now = true := by
  intro ps
  induction ps with
  | nil => intro _ p hp; exact absurd hp (List.not_mem_nil p)
  | cons p rest ih =>
    intro h q hq
    simp only [V2.checkSellProducts] at h
    split at h
    · exact Except.noConfusion h
    · split at h
      · exact Except.noConfusion h
      · split at h
        · exact Except.noConfusion h
        · rename_i hsup hmem hval
          rcases List.mem_cons.mp hq with rfl | hq
          · exact ⟨not_not.mp hsup, hmem, not_not.mp hval⟩
          · exact ih h q hq

/-- C4: an order referencing a product whose identity is not a key of
the in-stock map is rejected by `sellProduct` (in both variants) and
the store is returned unchanged: nothing is removed from stock and no
order is recorded. -/
theorem claim4_sellMissingProduct :
    (∀ (genOID : orderID) (o : V1.order) (s : V1.store),
      (∃ p ∈ o.products, lookupA p.ID s.products = none) →
        (V1.sellProduct genOID o s).1 = s ∧
        isErr (V1.sellProduct genOID o s).2 = true) ∧
    (∀ (now : Int) (o : V2.order) (s : V2.store),
      (∃ p ∈ o.products, lookupA p.ID s.productsInStock = none) →
        (V2.sellProduct now o s).1 = s ∧
        isErr (V2.sellProduct now o s).2 = true) := by
  constructor
  · intro genOID o s h
    obtain ⟨p, hp, hnone⟩ := h
    unfold V1.sellProduct
    split
    · exact ⟨rfl, rfl⟩
    · cases hchk : V1.checkOrderProducts s.products o.products with
      | error e => simp [hchk, isErr]
      | ok t =>
        exact absurd hnone
          (((checkOrderProducts_ok s.products o.products t hchk).1 p hp).1)
  · intro now o s h
    obtain ⟨p, hp, hnone⟩ := h
    unfold V2.sellProduct
    split
    · exact ⟨rfl, rfl⟩
    · cases hchk : V2.checkSellProducts s now o.products with
      | error e => simp [hchk, isErr]
      | ok u =>
        cases u
        exact absurd hnone
          ((checkSellProducts_ok s now o.products hchk p hp).2.1)

/-- C4 witness: a concrete order for a product that is not in stock is
rejected and leaves the store unchanged, in both variants. -/
theorem claim4_witness :
    ((V1.sellProduct 9
        { id := 0, name := "B", amountPaid := 1, shippingAddress := "A",
          products := [sampleA 1 "Car" 100] } (V1.newStore "S")).1 =
      V1.newStore "S" ∧
    isErr (V1.sellProduct 9
        { id := 0, name := "B", amountPaid := 1, shippingAddress := "A",
          products := [sampleA 1 "Car" 100] } (V1.newStore "S")).2 = true) ∧
    ((V2.sellProduct 0
        { id := 5, name := "B", amountPaid := 1, address := "A",
          products := [sampleB 1 "Car" 100] } (V2.newStore "S" ["Car"])).1 =
      V2.newStore "S" ["Car"] ∧
    isErr (V2.sellProduct 0
        { id := 5, name := "B", amountPaid := 1, address := "A",
          products := [sampleB 1 "Car" 100] } (V2.newStore "S" ["Car"])).2 =
      true) :=
  ⟨claim4_sellMissingProduct.1 9 _ _ ⟨sampleA 1 "Car" 100, List.mem_singleton.mpr rfl, rfl⟩,
    claim4_sellMissingProduct.2 0 _ _ ⟨sampleB 1 "Car" 100, List.mem_singleton.mpr rfl, rfl⟩⟩

/-- C1 (amended): in the `unnamed/part_000` variant of `sellProduct`,
which computes the order total, every order whose amount paid is
strictly below the sum of the prices of its products is rejected with
an error, no product is removed from stock and no order is recorded;
the `store.go` variant only requires the amount paid to be positive
and accepts underpaid orders (see the counterexample). -/
theorem claim1_insufficientPayment (genOID : orderID) (o : V1.order)
    (s : V1.store)
    (h : o.amountPaid < (o.products.map V1.Product.Price).sum) :
    (V1.sellProduct genOID o s).1 = s ∧
    isErr (V1.sellProduct genOID o s).2 = true := by
  unfold V1.sellProduct
  split
  · exact ⟨rfl, rfl⟩
  · cases hchk : V1.checkOrderProducts s.products o.products with
    | error e => simp [hchk, isErr]
    | ok total =>
      have htot : o.amountPaid < total := by
        rw [(checkOrderProducts_ok s.products o.products total hchk).2]
        exact h
      simp only [hchk]
      rw [if_pos htot]
      simp [isErr]

/-- C1 counterexample: in the `store.go` variant, a concrete order
paying 1 for a product priced 100 is accepted; the product is removed
from stock and the order recorded, although the amount paid is
strictly below the total price of the ordered products. -/
theorem claim1_counterexample :
    cexUnderpaidOrder.amountPaid <
      (cexUnderpaidOrder.products.map V2.Product.Price).sum ∧
    (V2.sellProduct 0 cexUnderpaidOrder cexStoreB).2 = .ok () ∧
    lookupA 1
      (V2.sellProduct 0 cexUnderpaidOrder cexStoreB).1.productsInStock =
      none ∧
    lookupA 5
      (V2.sellProduct 0 cexUnderpaidOrder cexStoreB).1.processedOrders =
      some cexUnderpaidOrder := by
  refine ⟨?_, rfl, rfl, rfl⟩
  norm_num [cexUnderpaidOrder, sampleB, V2.Product.Price, V2.Product.toProduct]

/-- C1 witness: a concrete underpaid order is rejected by the
`unnamed/part_000` variant and the store is unchanged. -/
theorem claim1_witness :
    (V1.sellProduct 9 witUnderpaidOrder witSaleStore).1 = witSaleStore ∧
    isErr (V1.sellProduct 9 witUnderpaidOrder witSaleStore).2 = true :=
  claim1_insufficientPayment 9 witUnderpaidOrder witSaleStore (by
    norm_num [witUnderpaidOrder, sampleA, V1.Product.Price,
      V1.Product.toProduct])

/-- C3: a sale accepted by `sellProduct` (in both variants) removes
exactly the ordered products from stock (every other in-stock key is
unchanged) and records exactly one new order, containing exactly the
ordered products, under the order id (every other processed-order key
is unchanged). -/
theorem claim3_successfulSale :
    (∀ (genOID : orderID) (o : V1.order) (s s2 : V1.store) (oid : orderID),
      V1.sellProduct genOID o s = (s2, .ok oid) →
        oid = genOID ∧
        (∀ p ∈ o.products, lookupA p.ID s2.products = none) ∧
        (∀ k, (∀ p ∈ o.products, p.ID ≠ k) →
          lookupA k s2.products = lookupA k s.products) ∧
        lookupA genOID s2.processedOrders = some { o with id := genOID } ∧
        (∀ k, k ≠ genOID →
          lookupA k s2.processedOrders = lookupA k s.processedOrders)) ∧
    (∀ (now : Int) (o : V2.order) (s s2 : V2.store),
      V2.sellProduct now o s = (s2, .ok ()) →
        (∀ p ∈ o.products, lookupA p.ID s2.productsInStock = none) ∧
        (∀ k, (∀ p ∈ o.products, p.ID ≠ k) →
          lookupA k s2.productsInStock = lookupA k s.productsInStock) ∧
        lookupA o.id s2.processedOrders = some o ∧
        (∀ k, k ≠ o.id →
          lookupA k s2.processedOrders = lookupA k s.processedOrders)) := by
  constructor
  · intro genOID o s s2 oid h
    unfold V1.sellProduct at h
    split at h
    · simp at h
    · split at h
      · simp at h
      · split at h
        · simp at h
        · rw [Prod.mk.injEq, Except.ok.injEq] at h
          obtain ⟨hs2, hoid⟩ := h
          subst hoid
          subst hs2
          refine ⟨rfl, ?_, ?_, ?_, ?_⟩
          · intro p hp
            show lookupA p.ID
              (eraseKeys (o.products.map V1.Product.ID) s.products) = none
            rw [lookupA_eraseKeys,
              if_pos (List.mem_map_of_mem V1.Product.ID hp)]
          · intro k hk
            show lookupA k
              (eraseKeys (o.products.map V1.Product.ID) s.products) = _
            rw [lookupA_eraseKeys, if_neg]
            intro hmem
            obtain ⟨p, hp, hpk⟩ := List.mem_map.mp hmem
            exact hk p hp hpk
          · show lookupA genOID
              (insertA genOID { o with id := genOID } s.processedOrders) = _
            rw [lookupA_insertA, if_pos rfl]
          · intro k hk
            show lookupA k
              (insertA genOID { o with id := genOID } s.processedOrders) = _
            rw [lookupA_insertA, if_neg hk]
  · intro now o s s2 h
    unfold V2.sellProduct at h
    split at h
    · simp at h
    · split at h
      · simp at h
      · rw [Prod.mk.injEq] at h
        obtain ⟨hs2, -⟩ := h
        subst hs2
        refine ⟨?_, ?_, ?_, ?_⟩
        · intro p hp
          show lookupA p.ID
            (eraseKeys (o.products.map V2.Product.ID) s.productsInStock) =
              none
          rw [lookupA_eraseKeys,
            if_pos (List.mem_map_of_mem V2.Product.ID hp)]
        · intro k hk
          show lookupA k
            (eraseKeys (o.products.map V2.Product.ID) s.productsInStock) = _
          rw [lookupA_eraseKeys, if_neg]
          intro hmem
          obtain ⟨p, hp, hpk⟩ := List.mem_map.mp hmem
          exact hk p hp hpk
        · show lookupA o.id (insertA o.id o s.processedOrders) = _
          rw [lookupA_insertA, if_pos rfl]
        · intro k hk
          show lookupA k (insertA o.id o s.processedOrders) = _
          rw [lookupA_insertA, if_neg hk]

/-- C3 witness: a concrete accepted sale in each variant; the sold
product (id 1) is gone from stock and the order is recorded under the
new order id. -/
theorem claim3_witness :
    lookupA 1 (V1.sellProduct 9 witSaleOrder witSaleStore).1.products =
      none ∧
    lookupA 9 (V1.sellProduct 9 witSaleOrder witSaleStore).1.processedOrders =
      some { witSaleOrder with id := 9 } ∧
    lookupA 1
      (V2.sellProduct 0 cexUnderpaidOrder cexStoreB).1.productsInStock =
      none ∧
    lookupA 5
      (V2.sellProduct 0 cexUnderpaidOrder cexStoreB).1.processedOrders =
      some cexUnderpaidOrder := by
  have h2 : (V1.sellProduct 9 witSaleOrder witSaleStore).2 = .ok 9 := by
    norm_num [V1.sellProduct, V1.checkOrderProducts, witSaleOrder,
      witSaleStore, sampleA, V1.Product.ID, V1.Product.toProduct,
      V1.Product.IsValid, V1.product.IsValid, V1.Product.Price, lookupA]
    simp
  have h1 : V1.sellProduct 9 witSaleOrder witSaleStore =
      ((V1.sellProduct 9 witSaleOrder witSaleStore).1, .ok 9) := by
    rw [← h2]
  have hm1 := claim3_successfulSale.1 9 witSaleOrder witSaleStore
    (V1.sellProduct 9 witSaleOrder witSaleStore).1 9 h1
  have h4 : V2.sellProduct 0 cexUnderpaidOrder cexStoreB =
      ((V2.sellProduct 0 cexUnderpaidOrder cexStoreB).1, .ok ()) := by
    have h3 : (V2.sellProduct 0 cexUnderpaidOrder cexStoreB).2 = .ok () := rfl
    rw [← h3]
  have hm2 := claim3_successfulSale.2 0 cexUnderpaidOrder cexStoreB
    (V2.sellProduct 0 cexUnderpaidOrder cexStoreB).1 h4
  exact ⟨hm1.2.1 (sampleA 1 "Car" 100) (List.mem_singleton.mpr rfl),
    hm1.2.2.2.1,
    hm2.1 (sampleB 1 "Car" 100) (List.mem_singleton.mpr rfl),
    hm2.2.2.1⟩

/-! Helper lemmas about `addProducts`. -/

theorem withProduct_toProduct (p : V1.Product) (q : V1.product) :
    (p.withProduct q).toProduct = q := by
  cases p <;> rfl

theorem stampProduct_ID (newID : productID) (now : Int) (p : V1.Product) :
    (V1.stampProduct newID now p).ID = newID := by
  cases p <;> rfl

theorem validateProducts_ok (ps : List V1.Product) :
    V1.validateProducts ps = .ok () ↔ ∀ p ∈ ps, p.IsValid = true := by
  induction ps with
  | nil => simp [V1.validateProducts]
  | cons p rest ih =>
    by_cases h : p.IsValid = true
    · simp [V1.validateProducts, h, ih]
    · simp [V1.validateProducts, h]

theorem addLoop_snd (gen : Nat → productID) (now : Int) :
    ∀ (ps : List V1.Product) (i : Nat) (m : List (productID × V1.Product)),
      (V1.addLoop gen now i ps m).2 = (List.range' i ps.length).map gen := by
  intro ps
  induction ps with
  | nil => intro i m; simp [V1.addLoop]
  | cons p rest ih =>
    intro i m
    simp only [V1.addLoop, List.length_cons, List.range'_succ, List.map_cons]
    rw [stampProduct_ID, ih]

theorem addLoop_lookup_notin (gen : Nat → productID) (now : Int) :
    ∀ (ps : List V1.Product) (i : Nat) (m : List (productID × V1.Product))
      (k : productID),
      (∀ j, i ≤ j → j < i + ps.length → gen j ≠ k) →
      lookupA k (V1.addLoop gen now i ps m).1 = lookupA k m := by
  intro ps
  induction ps with
  | nil => intro i m k _; rfl
  | cons p rest ih =>
    intro i m k h
    simp only [V1.addLoop]
    rw [ih (i + 1) _ k
        (fun j h1 h2 => h j (by omega) (by rw [List.length_cons]; omega)),
      stampProduct_ID, lookupA_insertA,
      if_neg (fun hk => h i (Nat.le_refl i) (by simp) hk.symm)]

theorem addLoop_lookup_get (gen : Nat → productID) (now : Int) :
    ∀ (ps : List V1.Product) (i : Nat) (m : List (productID × V1.Product))
      (j : Nat) (hj : j < ps.length),
      (∀ j2, j < j2 → j2 < ps.length → gen (i + j2) ≠ gen (i + j)) →
      lookupA (gen (i + j)) (V1.addLoop gen now i ps m).1 =
        some (V1.stampProduct (gen (i + j)) now (ps.get ⟨j, hj⟩)) := by
  intro ps
  induction ps with
  | nil => intro i m j hj; exact absurd hj (Nat.not_lt_zero j)
  | cons p rest ih =>
    intro i m j hj hdist
    cases j with
    | zero =>
      simp only [V1.addLoop, Nat.add_zero]
      have hnotin : ∀ j2, i + 1 ≤ j2 → j2 < i + 1 + rest.length →
          gen j2 ≠ gen i := by
        intro j2 h1 h2 heq
        refine hdist (j2 - i) (by omega) (by rw [List.length_cons]; omega) ?_
        rw [show i + (j2 - i) = j2 by omega, Nat.add_zero]
        exact heq
      rw [addLoop_lookup_notin gen now rest (i + 1) _ (gen i) hnotin,
        stampProduct_ID, lookupA_insertA, if_pos rfl]
      rfl
    | succ j1 =>
      simp only [V1.addLoop]
      have harith : i + (j1 + 1) = (i + 1) + j1 := by omega
      rw [harith]
      exact ih (i + 1) _ j1 (by simpa using Nat.lt_of_succ_lt_succ hj)
        (fun j2 hgt hlt => by
          have := hdist (j2 + 1) (by omega) (by simpa using Nat.succ_lt_succ hlt)
          rw [show i + (j2 + 1) = (i + 1) + j2 by omega, harith] at this
          exact this)

theorem addProducts_ok_ids (gen : Nat → productID) (now : Int)
    (ps : List V1.Product) (s : V1.store) (ids : List productID)
    (h : (V1.addProducts gen now ps s).2 = .ok ids) :
    ids = (List.range ps.length).map gen := by
  unfold V1.addProducts at h
  by_cases hlen : ps.length = 0
  · rw [if_pos hlen] at h
    exact Except.noConfusion h
  · rw [if_neg hlen] at h
    cases hv : V1.validateProducts ps with
    | error e => rw [hv] at h; exact Except.noConfusion h
    | ok u =>
      cases u
      rw [hv] at h
      simp only [Except.ok.injEq] at h
      rw [← h, addLoop_snd, List.range_eq_range']

/-- C2: `addProducts` on a non-empty batch of valid products succeeds,
assigns product `i` of the batch the generated id `gen i` with both
timestamps set to `now` before inserting it into the in-stock map, and
returns exactly the list of assigned ids in batch order; all other
keys of the in-stock map and the processed orders are untouched.  On
an empty batch or a batch containing an invalid product it returns an
error and leaves the store unchanged. -/
theorem claim2_addProducts :
    (∀ (gen : Nat → productID) (now : Int) (ps : List V1.Product)
        (s : V1.store),
      ps ≠ [] → (∀ p ∈ ps, p.IsValid = true) →
      (∀ i j, i < ps.length → j < ps.length → gen i = gen j → i = j) →
        (V1.addProducts gen now ps s).2 =
          .ok ((List.range ps.length).map gen) ∧
        (∀ j (hj : j < ps.length),
          lookupA (gen j) (V1.addProducts gen now ps s).1.products =
            some (V1.stampProduct (gen j) now (ps.get ⟨j, hj⟩))) ∧
        (∀ k, (∀ j, j < ps.length → gen j ≠ k) →
          lookupA k (V1.addProducts gen now ps s).1.products =
            lookupA k s.products) ∧
        (V1.addProducts gen now ps s).1.processedOrders =
          s.processedOrders) ∧
    (∀ (gen : Nat → productID) (now : Int) (ps : List V1.Product)
        (s : V1.store),
      ps = [] ∨ (∃ p ∈ ps, p.IsValid = false) →
        (V1.addProducts gen now ps s).1 = s ∧
        isErr (V1.addProducts gen now ps s).2 = true) := by
  constructor
  · intro gen now ps s hne hval hinj
    have hlen : ¬ps.length = 0 := by simpa [List.length_eq_zero] using hne
    have hok : V1.validateProducts ps = .ok () :=
      (validateProducts_ok ps).mpr hval
    unfold V1.addProducts
    rw [if_neg hlen, hok]
    refine ⟨?_, ?_, ?_, rfl⟩
    · show Except.ok (V1.addLoop gen now 0 ps s.products).2 = _
      rw [addLoop_snd, List.range_eq_range']
    · intro j hj
      show lookupA (gen j) (V1.addLoop gen now 0 ps s.products).1 = _
      have hdist : ∀ j2, j < j2 → j2 < ps.length →
          gen (0 + j2) ≠ gen (0 + j) := by
        intro j2 hgt hlt heq
        rw [Nat.zero_add, Nat.zero_add] at heq
        exact absurd (hinj j2 j hlt hj heq) (by omega)
      have := addLoop_lookup_get gen now ps 0 s.products j hj hdist
      rwa [Nat.zero_add] at this
    · intro k hk
      show lookupA k (V1.addLoop gen now 0 ps s.products).1 =
        lookupA k s.products
      exact addLoop_lookup_notin gen now ps 0 s.products k
        (fun j h1 h2 => hk j (by omega))
  · intro gen now ps s h
    unfold V1.addProducts
    rcases h with rfl | ⟨p, hp, hbad⟩
    · exact ⟨rfl, rfl⟩
    · by_cases hlen : ps.length = 0
      · rw [if_pos hlen]
        exact ⟨rfl, rfl⟩
      · rw [if_neg hlen]
        cases hv : V1.validateProducts ps with
        | error e => simp [hv, isErr]
        | ok u =>
          cases u
          have := (validateProducts_ok ps).mp hv p hp
          rw [hbad] at this
          exact absurd this Bool.false_ne_true

/-- C2 witness: concretely adding one valid product with the id supply
`fun i => i + 1` at time 0 returns the id list `[1]` and stores the
product stamped with id 1 and both timestamps 0; the empty batch is
rejected and leaves the store unchanged. -/
theorem claim2_witness :
    (V1.addProducts (fun i => i + 1) 0 [sampleA 1 "Car" 100]
      (V1.newStore "S")).2 = .ok [1] ∧
    lookupA 1 (V1.addProducts (fun i => i + 1) 0 [sampleA 1 "Car" 100]
      (V1.newStore "S")).1.products =
      some (V1.stampProduct 1 0 (sampleA 1 "Car" 100)) ∧
    (V1.addProducts (fun i => i + 1) 0 [] (V1.newStore "S")).1 =
      V1.newStore "S" ∧
    isErr (V1.addProducts (fun i => i + 1) 0 [] (V1.newStore "S")).2 =
      true := by
  have h := claim2_addProducts.1 (fun i => i + 1) 0 [sampleA 1 "Car" 100]
    (V1.newStore "S") (by simp)
    (fun p hp => by rw [List.mem_singleton.mp hp]; rfl)
    (fun i j _ _ hij => by
      have h2 : i + 1 = j + 1 := hij
      omega)
  have he := claim2_addProducts.2 (fun i => i + 1) 0 [] (V1.newStore "S")
    (Or.inl rfl)
  exact ⟨h.1, h.2.1 0 (by decide), he.1, he.2⟩

/-- C5: every id reported by a successful `addProducts` call comes from
the random-id supply, so as long as the supply never returns the zero
id and never repeats (the model of `crypto/rand`), the returned ids
are pairwise distinct and non-zero. -/
theorem claim5_uniqueIDs (gen : Nat → productID) (now : Int)
    (ps : List V1.Product) (s s2 : V1.store) (ids : List productID)
    (hnz : ∀ i, gen i ≠ zeroProductID)
    (hinj : ∀ i j, gen i = gen j → i = j)
    (h : V1.addProducts gen now ps s = (s2, .ok ids)) :
    ids.Nodup ∧ ∀ id0 ∈ ids, id0 ≠ zeroProductID := by
  have h2 : (V1.addProducts gen now ps s).2 = .ok ids := by rw [h]
  have hids := addProducts_ok_ids gen now ps s ids h2
  subst hids
  constructor
  · exact (List.nodup_range ps.length).map_on
      (fun i _ j _ hij => hinj i j hij)
  · intro id0 hid
    obtain ⟨i, _, rfl⟩ := List.mem_map.mp hid
    exact hnz i

/-- C5 witness: concretely adding two valid products with the id
supply `fun i => i + 2` yields the ids 2 and 3, which are non-zero and
pairwise distinct. -/
theorem claim5_witness :
    (2 : productID) ≠ zeroProductID ∧ (3 : productID) ≠ zeroProductID ∧
    ([2, 3] : List productID).Nodup := by
  have hpair : V1.addProducts (fun i => i + 2) 0
      [sampleA 1 "Car" 100, sampleA 1 "Car" 50] (V1.newStore "S") =
      ((V1.addProducts (fun i => i + 2) 0
        [sampleA 1 "Car" 100, sampleA 1 "Car" 50] (V1.newStore "S")).1,
        .ok [2, 3]) := by
    have hsnd : (V1.addProducts (fun i => i + 2) 0
        [sampleA 1 "Car" 100, sampleA 1 "Car" 50]
        (V1.newStore "S")).2 = .ok [2, 3] := rfl
    rw [← hsnd]
  have h := claim5_uniqueIDs (fun i => i + 2) 0
    [sampleA 1 "Car" 100, sampleA 1 "Car" 50] (V1.newStore "S") _ [2, 3]
    (fun i => show i + 2 ≠ 0 by omega)
    (fun i j hij => by
      have h2 : i + 2 = j + 2 := hij
      omega) hpair
  exact ⟨h.2 2 (by simp), h.2 3 (by simp), h.1⟩

/-! Helper lemmas about the listing loops. -/

theorem availLoop_spec (keep : V1.Product → Bool) :
    ∀ m : List (productID × V1.Product),
      V1.availLoop keep m =
        ((m.map Prod.snd).filter keep,
          (((m.map Prod.snd).filter keep).map V1.Product.Price).sum) := by
  intro m
  induction m with
  | nil => rfl
  | cons kv rest ih =>
    simp only [V1.availLoop, ih, List.map_cons, List.filter_cons]
    by_cases h : keep kv.2
    · simp [h, add_comm]
    · simp [h]

theorem soldLoopProducts_spec (keep : V1.Product → Bool) :
    ∀ ps : List V1.Product,
      V1.soldLoopProducts keep ps =
        (ps.filter keep, ((ps.filter keep).map V1.Product.Price).sum) := by
  intro ps
  induction ps with
  | nil => rfl
  | cons p rest ih =>
    simp only [V1.soldLoopProducts, ih, List.filter_cons]
    by_cases h : keep p
    · simp [h, add_comm]
    · simp [h]

theorem soldLoop_spec (keep : V1.Product → Bool) :
    ∀ os : List (orderID × V1.order),
      V1.soldLoop keep os =
        (((os.map (fun kv => kv.2.products)).flatten).filter keep,
          ((((os.map (fun kv => kv.2.products)).flatten).filter keep).map
            V1.Product.Price).sum) := by
  intro os
  induction os with
  | nil => rfl
  | cons kv rest ih =>
    simp only [V1.soldLoop, ih, soldLoopProducts_spec, List.map_cons,
      List.flatten_cons, List.filter_append, List.map_append,
      List.sum_append]

theorem availLoopB_spec (keep : V2.Product → Bool) :
    ∀ m : List (productID × V2.Product),
      V2.availLoop keep m =
        ((m.map Prod.snd).filter keep,
          (((m.map Prod.snd).filter keep).map V2.Product.Price).sum) := by
  intro m
  induction m with
  | nil => rfl
  | cons kv rest ih =>
    simp only [V2.availLoop, ih, List.map_cons, List.filter_cons]
    by_cases h : keep kv.2
    · simp [h, add_comm]
    · simp [h]

theorem soldLoopProductsB_spec (keep : V2.Product → Bool) :
    ∀ ps : List V2.Product,
      V2.soldLoopProducts keep ps =
        (ps.filter keep, ((ps.filter keep).map V2.Product.Price).sum) := by
  intro ps
  induction ps with
  | nil => rfl
  | cons p rest ih =>
    simp only [V2.soldLoopProducts, ih, List.filter_cons]
    by_cases h : keep p
    · simp [h, add_comm]
    · simp [h]

theorem soldLoopB_spec (keep : V2.Product → Bool) :
    ∀ os : List (orderID × V2.order),
      V2.soldLoop keep os =
        (((os.map (fun kv => kv.2.products)).flatten).filter keep,
          ((((os.map (fun kv => kv.2.products)).flatten).filter keep).map
            V2.Product.Price).sum) := by
  intro os
  induction os with
  | nil => rfl
  | cons kv rest ih =>
    simp only [V2.soldLoop, ih, soldLoopProductsB_spec, List.map_cons,
      List.flatten_cons, List.filter_append, List.map_append,
      List.sum_append]

/-- C6 (amended): for a non-empty type tag, the listing operations of
the `unnamed/part_000` variant return exactly the products (in stock,
respectively inside processed orders) whose type equals the tag,
together with the sum of the prices of the returned products; in the
`store.go` variant the same holds provided the tag is enabled in the
supported set (for `availableProducts`), respectively present in the
supported map (for `soldProducts`) — otherwise those operations return
an error (see the counterexample). -/
theorem claim6_filteredListings :
    (∀ (t : String) (s : V1.store), t ≠ "" →
      (V1.availableProducts t s).1 =
        (s.products.map Prod.snd).filter (fun p => decide (p.ptype = t)) ∧
      (V1.availableProducts t s).2 =
        (((s.products.map Prod.snd).filter
          (fun p => decide (p.ptype = t))).map V1.Product.Price).sum) ∧
    (∀ (t : String) (s : V1.store), t ≠ "" →
      (V1.soldProducts t s).1 =
        ((s.processedOrders.map (fun kv => kv.2.products)).flatten).filter
          (fun p => decide (p.ptype = t)) ∧
      (V1.soldProducts t s).2 =
        ((((s.processedOrders.map
          (fun kv => kv.2.products)).flatten).filter
            (fun p => decide (p.ptype = t))).map V1.Product.Price).sum) ∧
    (∀ (t : String) (s : V2.store), t ≠ "" →
      lookupA t s.supportedProducts = some true →
      V2.availableProducts t s =
        .ok ((s.productsInStock.map Prod.snd).filter
            (fun p => decide (p.ptype = t)),
          (((s.productsInStock.map Prod.snd).filter
            (fun p => decide (p.ptype = t))).map V2.Product.Price).sum)) ∧
    (∀ (t : String) (s : V2.store), t ≠ "" →
      lookupA t s.supportedProducts ≠ none →
      V2.soldProducts t s =
        .ok (((s.processedOrders.map
            (fun kv => kv.2.products)).flatten).filter
              (fun p => decide (p.ptype = t)),
          ((((s.processedOrders.map
            (fun kv => kv.2.products)).flatten).filter
              (fun p => decide (p.ptype = t))).map V2.Product.Price).sum)) := by
  refine ⟨?_, ?_, ?_, ?_⟩
  · intro t s ht
    unfold V1.availableProducts
    rw [if_neg ht, availLoop_spec]
    exact ⟨rfl, rfl⟩
  · intro t s ht
    unfold V1.soldProducts
    rw [if_neg ht, soldLoop_spec]
    exact ⟨rfl, rfl⟩
  · intro t s ht hsup
    unfold V2.availableProducts
    rw [if_neg ht, if_neg (fun hc => hc hsup), availLoopB_spec]
  · intro t s ht hsup
    unfold V2.soldProducts
    rw [if_neg ht, if_neg hsup, soldLoopB_spec]

/-- C6 counterexample: in the `store.go` variant, with the "Car" type
present but disabled and a "Car" product in stock, the filtered
listing returns an error instead of the (non-empty) list of matching
in-stock products and their total price demanded by the claim. -/
theorem claim6_counterexample :
    V2.availableProducts "Car" disabledStoreB =
      .error "product type is not supported" ∧
    (disabledStoreB.productsInStock.map Prod.snd).filter
      (fun p => decide (p.ptype = "Car")) = [sampleB 1 "Car" 100] :=
  ⟨rfl, rfl⟩

/-- C6 witness: concrete filtered listings in both variants. -/
theorem claim6_witness :
    (V1.availableProducts "Car" witSaleStore).1 = [sampleA 1 "Car" 100] ∧
    (V1.availableProducts "Car" witSaleStore).2 = 100 ∧
    (V1.soldProducts "Car" (V1.newStore "S")).1 = [] ∧
    V2.availableProducts "Car" cexStoreB = .ok ([sampleB 1 "Car" 100], 100) := by
  have h1 := claim6_filteredListings.1 "Car" witSaleStore (by decide)
  have h2 := claim6_filteredListings.2.1 "Car" (V1.newStore "S") (by decide)
  have h3 := claim6_filteredListings.2.2.1 "Car" cexStoreB (by decide) rfl
  refine ⟨h1.1, h1.2.trans ?_, h2.1, h3.trans ?_⟩
  · norm_num [witSaleStore, sampleA, V1.Product.Price, V1.Product.toProduct,
      V1.Product.ptype, List.filter]
  · norm_num [cexStoreB, sampleB, V2.Product.Price, V2.Product.toProduct,
      V2.Product.ptype, List.filter]

/-! Helper lemmas about the mutating operations and the supported-type
set of the `store.go` variant. -/

theorem updateProduct_supported (now : Int) (ps : List V2.Product)
    (s : V2.store) :
    (V2.updateProduct now ps s).1.supportedProducts = s.supportedProducts := by
  unfold V2.updateProduct
  split
  · rfl
  · cases hv : V2.validateUpdate s.supportedProducts now ps with
    | error e => simp [hv]
    | ok u => cases u; simp [hv]

theorem sellProduct_supported (now : Int) (o : V2.order) (s : V2.store) :
    (V2.sellProduct now o s).1.supportedProducts = s.supportedProducts := by
  unfold V2.sellProduct
  split
  · rfl
  · cases hv : V2.checkSellProducts s now o.products with
    | error e => simp [hv]
    | ok u => cases u; simp [hv]

theorem deleteProducts_supported (ids : List productID) (s : V2.store) :
    (V2.deleteProducts ids s).1.supportedProducts = s.supportedProducts := by
  unfold V2.deleteProducts
  split <;> rfl

theorem updateProduct_orders (now : Int) (ps : List V2.Product)
    (s : V2.store) :
    (V2.updateProduct now ps s).1.processedOrders = s.processedOrders := by
  unfold V2.updateProduct
  split
  · rfl
  · cases hv : V2.validateUpdate s.supportedProducts now ps with
    | error e => simp [hv]
    | ok u => cases u; simp [hv]

theorem deleteProducts_orders (ids : List productID) (s : V2.store) :
    (V2.deleteProducts ids s).1.processedOrders = s.processedOrders := by
  unfold V2.deleteProducts
  split <;> rfl

theorem updateProductsSupported_orders (t : String) (b : Bool)
    (s : V2.store) :
    (V2.updateProductsSupported t b s).1.processedOrders =
      s.processedOrders := by
  unfold V2.updateProductsSupported
  split <;> rfl

theorem foldl_insert_supported (inits : List String) :
    ∀ (m : List (String × Bool)) (t : String),
      lookupA t (inits.foldl (fun m t => insertA t true m) m) ≠ none →
      t ∈ inits ∨ lookupA t m ≠ none := by
  induction inits with
  | nil => intro m t h; exact Or.inr h
  | cons i rest ih =>
    intro m t h
    rcases ih (insertA i true m) t h with hmem | hlk
    · exact Or.inl (List.mem_cons_of_mem i hmem)
    · rw [lookupA_insertA] at hlk
      by_cases hti : t = i
      · subst hti
        exact Or.inl (List.mem_cons_self t rest)
      · rw [if_neg hti] at hlk
        exact Or.inr hlk

theorem applyOp_supported (s : V2.store) (op : V2.StoreOp) (t : String)
    (h : lookupA t (V2.applyOp s op).supportedProducts ≠ none) :
    lookupA t s.supportedProducts ≠ none ∨
      op = V2.StoreOp.setSupported t true := by
  cases op with
  | update now ps =>
    rw [show V2.applyOp s (.update now ps) = (V2.updateProduct now ps s).1
      from rfl, updateProduct_supported] at h
    exact Or.inl h
  | sell now o =>
    rw [show V2.applyOp s (.sell now o) = (V2.sellProduct now o s).1
      from rfl, sellProduct_supported] at h
    exact Or.inl h
  | del ids =>
    rw [show V2.applyOp s (.del ids) = (V2.deleteProducts ids s).1
      from rfl, deleteProducts_supported] at h
    exact Or.inl h
  | setSupported t2 b =>
    rw [show V2.applyOp s (.setSupported t2 b) =
      (V2.updateProductsSupported t2 b s).1 from rfl] at h
    unfold V2.updateProductsSupported at h
    split at h
    · exact Or.inl h
    · rename_i hcond
      have h2 : lookupA t (insertA t2 b s.supportedProducts) ≠ none := h
      rw [lookupA_insertA] at h2
      by_cases ht : t = t2
      · subst ht
        cases b with
        | false =>
          left
          intro hnone
          exact hcond ⟨by simp, hnone⟩
        | true => exact Or.inr rfl
      · rw [if_neg ht] at h2
        exact Or.inl h2

theorem runOps_supported :
    ∀ (ops : List V2.StoreOp) (s : V2.store) (t : String),
      lookupA t (V2.runOps s ops).supportedProducts ≠ none →
      lookupA t s.supportedProducts ≠ none ∨
        ∃ op ∈ ops, op = V2.StoreOp.setSupported t true := by
  intro ops
  induction ops with
  | nil => intro s t h; exact Or.inl h
  | cons op rest ih =>
    intro s t h
    rcases ih (V2.applyOp s op) t h with h1 | ⟨op2, hop2, heq⟩
    · rcases applyOp_supported s op t h1 with h2 | h2
      · exact Or.inl h2
      · exact Or.inr ⟨op, List.mem_cons_self op rest, h2⟩
    · exact Or.inr ⟨op2, List.mem_cons_of_mem op hop2, heq⟩

/-- C8: disabling a product type that is not present in the
supported-types map returns an error and leaves the store unchanged;
and in every state reachable from a fresh store by mutating
operations, a type present in the supported map was enabled at some
earlier point — either listed at construction or enabled by an
explicit `setSupported _ true` call — so disabling a type that was
never enabled always errors. -/
theorem claim8_supportedTypes :
    (∀ (t : String) (s : V2.store), lookupA t s.supportedProducts = none →
      V2.updateProductsSupported t false s =
        (s, .error "cannot disable non-existent product type")) ∧
    (∀ (name : String) (inits : List String) (ops : List V2.StoreOp)
        (t : String),
      lookupA t
        (V2.runOps (V2.newStore name inits) ops).supportedProducts ≠ none →
      t ∈ inits ∨ ∃ op ∈ ops, op = V2.StoreOp.setSupported t true) := by
  constructor
  · intro t s h
    unfold V2.updateProductsSupported
    rw [if_pos ⟨by simp, h⟩]
  · intro name inits ops t h
    rcases runOps_supported ops (V2.newStore name inits) t h with h1 | h2
    · rcases foldl_insert_supported inits [] t h1 with hm | hl
      · exact Or.inl hm
      · exact absurd rfl hl
    · exact Or.inr h2

/-- C8 witness: disabling the never-enabled type "X" on a fresh store
errors and leaves the store unchanged, and a type found supported
after no operations must come from the constructor list. -/
theorem claim8_witness :
    V2.updateProductsSupported "X" false (V2.newStore "S" ["Spare"]) =
      (V2.newStore "S" ["Spare"],
        .error "cannot disable non-existent product type") ∧
    ("Spare" : String) ∈ ["Spare"] := by
  refine ⟨claim8_supportedTypes.1 "X" (V2.newStore "S" ["Spare"]) rfl, ?_⟩
  rcases claim8_supportedTypes.2 "S" ["Spare"] [] "Spare" (by decide)
    with hm | ⟨op, hop, _⟩
  · exact hm
  · exact absurd hop (List.not_mem_nil op)

theorem applyOp_preservesOrder (s : V2.store) (op : V2.StoreOp)
    (oid : orderID) (o : V2.order)
    (hfresh : match op with
      | .sell _ o2 => lookupA o2.id s.processedOrders = none
      | _ => True)
    (h : lookupA oid s.processedOrders = some o) :
    lookupA oid (V2.applyOp s op).processedOrders = some o := by
  cases op with
  | update now ps =>
    rw [show V2.applyOp s (.update now ps) = (V2.updateProduct now ps s).1
      from rfl, updateProduct_orders]
    exact h
  | del ids =>
    rw [show V2.applyOp s (.del ids) = (V2.deleteProducts ids s).1
      from rfl, deleteProducts_orders]
    exact h
  | setSupported t b =>
    rw [show V2.applyOp s (.setSupported t b) =
      (V2.updateProductsSupported t b s).1 from rfl,
      updateProductsSupported_orders]
    exact h
  | sell now o2 =>
    show lookupA oid (V2.sellProduct now o2 s).1.processedOrders = some o
    unfold V2.sellProduct
    split
    · exact h
    · cases hchk : V2.checkSellProducts s now o2.products with
      | error e => simp only [hchk]; exact h
      | ok u =>
        cases u
        simp only [hchk]
        show lookupA oid (insertA o2.id o2 s.processedOrders) = some o
        rw [lookupA_insertA, if_neg ?hne]
        · exact h
        case hne =>
          intro heq
          rw [heq] at h
          rw [hfresh] at h
          exact Option.noConfusion h

theorem runOps_preservesOrder :
    ∀ (ops : List V2.StoreOp) (s : V2.store) (oid : orderID)
      (o : V2.order), V2.SellIDsFresh s ops →
      lookupA oid s.processedOrders = some o →
      lookupA oid (V2.runOps s ops).processedOrders = some o := by
  intro ops
  induction ops with
  | nil => intro s oid o _ h; exact h
  | cons op rest ih =>
    intro s oid o hf h
    exact ih (V2.applyOp s op) oid o hf.2
      (applyOp_preservesOrder s op oid o hf.1 h)

/-- C9 (amended): in the `store.go` variant, along any run of mutating
operations in which every sale presents an order id that is not
already recorded (as when ids are drawn fresh from `crypto/rand`), a
recorded order is never modified or removed by later operations (the
read-only queries are pure functions of the state); and at the moment
a sale is accepted, the recorded order's products are no longer keys
of the in-stock map.  Without the freshness condition the claim fails:
a later sale may reuse an order id and overwrite the recorded order
(see the counterexample). -/
theorem claim9_ordersImmutable :
    (∀ (ops : List V2.StoreOp) (s : V2.store) (oid : orderID)
        (o : V2.order), V2.SellIDsFresh s ops →
      lookupA oid s.processedOrders = some o →
      lookupA oid (V2.runOps s ops).processedOrders = some o) ∧
    (∀ (now : Int) (o : V2.order) (s s2 : V2.store),
      V2.sellProduct now o s = (s2, .ok ()) →
        lookupA o.id s2.processedOrders = some o ∧
        ∀ p ∈ o.products, lookupA p.ID s2.productsInStock = none) := by
  constructor
  · exact runOps_preservesOrder
  · intro now o s s2 h
    unfold V2.sellProduct at h
    split at h
    · simp at h
    · split at h
      · simp at h
      · rw [Prod.mk.injEq] at h
        obtain ⟨hs2, -⟩ := h
        subst hs2
        refine ⟨?_, ?_⟩
        · show lookupA o.id (insertA o.id o s.processedOrders) = some o
          rw [lookupA_insertA, if_pos rfl]
        · intro p hp
          show lookupA p.ID
            (eraseKeys (o.products.map V2.Product.ID) s.productsInStock) =
              none
          rw [lookupA_eraseKeys,
            if_pos (List.mem_map_of_mem V2.Product.ID hp)]

/-- C9 counterexample: after recording the order `cexOrder1` under
order id 7, a later sale reusing id 7 replaces it with `cexOrder2`, so
the recorded order is not immune to subsequent operations. -/
theorem claim9_counterexample :
    lookupA 7
      (V2.runOps (V2.newStore "S" ["Car"]) cexOps1).processedOrders =
      some cexOrder1 ∧
    lookupA 7
      (V2.runOps (V2.newStore "S" ["Car"]) cexOps2).processedOrders =
      some cexOrder2 ∧
    cexOrder2 ≠ cexOrder1 := by
  refine ⟨rfl, rfl, by decide⟩

/-- C9 witness: the order recorded under id 7 survives a later add,
delete and type toggle, and an accepted concrete sale records the
order while its product is gone from stock. -/
theorem claim9_witness :
    lookupA 7
      (V2.runOps (V2.runOps (V2.newStore "S" ["Car"]) cexOps1)
        [.update 0 [sampleB 2 "Car" 50], .del [2],
          .setSupported "X" true]).processedOrders = some cexOrder1 ∧
    lookupA 7
      (V2.sellProduct 0 cexOrder1 cexStoreB).1.processedOrders =
      some cexOrder1 ∧
    lookupA 1
      (V2.sellProduct 0 cexOrder1 cexStoreB).1.productsInStock = none := by
  have h1 := claim9_ordersImmutable.1
    [.update 0 [sampleB 2 "Car" 50], .del [2], .setSupported "X" true]
    (V2.runOps (V2.newStore "S" ["Car"]) cexOps1) 7 cexOrder1
    ⟨trivial, trivial, trivial, trivial⟩ rfl
  have h4 : V2.sellProduct 0 cexOrder1 cexStoreB =
      ((V2.sellProduct 0 cexOrder1 cexStoreB).1, .ok ()) := by
    have h3 : (V2.sellProduct 0 cexOrder1 cexStoreB).2 = .ok () := rfl
    rw [← h3]
  have h2 := claim9_ordersImmutable.2 0 cexOrder1 cexStoreB
    (V2.sellProduct 0 cexOrder1 cexStoreB).1 h4
  exact ⟨h1, h2.1,
    h2.2 (sampleB 1 "Car" 100) (List.mem_singleton.mpr rfl)⟩

/-- C10 (amended): in the `store.go` variant, for every non-empty
product type not currently enabled in the supported map (absent or
disabled), the stock check reports `false` and the filtered
available-products listing errors, even when products of that type are
in stock, and an order containing a product of that type is rejected
with the store unchanged.  For the empty type tag the claim fails:
`availableProducts ""` returns the whole stock without error (see the
counterexample). -/
theorem claim10_unsupportedType (t : String) (s : V2.store)
    (hne : t ≠ "") (hns : lookupA t s.supportedProducts ≠ some true) :
    V2.inStock t s = false ∧
    isErr (V2.availableProducts t s) = true ∧
    (∀ (now : Int) (o : V2.order), (∃ p ∈ o.products, p.ptype = t) →
      (V2.sellProduct now o s).1 = s ∧
      isErr (V2.sellProduct now o s).2 = true) := by
  refine ⟨?_, ?_, ?_⟩
  · unfold V2.inStock
    rw [if_pos hns]
  · unfold V2.availableProducts
    rw [if_neg hne, if_pos hns]
    rfl
  · intro now o hex
    obtain ⟨p, hp, hpt⟩ := hex
    unfold V2.sellProduct
    split
    · exact ⟨rfl, rfl⟩
    · cases hchk : V2.checkSellProducts s now o.products with
      | error e => simp [hchk, isErr]
      | ok u =>
        cases u
        have hsup := (checkSellProducts_ok s now o.products hchk p hp).1
        rw [hpt] at hsup
        exact absurd hsup hns

/-- C10 counterexample: the empty type tag is not marked supported in
a fresh store, yet the filtered listing for it returns the whole stock
without an error rather than failing. -/
theorem claim10_counterexample :
    lookupA "" (V2.newStore "S" []).supportedProducts = none ∧
    V2.availableProducts "" (V2.newStore "S" []) = .ok ([], 0) :=
  ⟨rfl, rfl⟩

/-- C10 witness: with "Car" disabled but a "Car" product still in
stock, the stock check is `false`, the filtered listing errors, and a
sale of that product is rejected with the store unchanged. -/
theorem claim10_witness :
    V2.inStock "Car" disabledStoreB = false ∧
    isErr (V2.availableProducts "Car" disabledStoreB) = true ∧
    (V2.sellProduct 0 cexOrder1 disabledStoreB).1 = disabledStoreB ∧
    isErr (V2.sellProduct 0 cexOrder1 disabledStoreB).2 = true := by
  have h := claim10_unsupportedType "Car" disabledStoreB (by decide)
    (by decide)
  have h3 := h.2.2 0 cexOrder1
    ⟨sampleB 1 "Car" 100, List.mem_singleton.mpr rfl, rfl⟩
  exact ⟨h.1, h.2.1, h3.1, h3.2⟩

/-- C7 witness: deleting ids 1 and 99 from a store holding only
product 1 removes product 1, skips the absent id 99 without error and
reports one deletion, in both variants. -/
theorem claim7_witness :
    (V1.deleteProducts [1, 99] witSaleStore).2 = .ok 1 ∧
    lookupA 1 (V1.deleteProducts [1, 99] witSaleStore).1.products = none ∧
    (V2.deleteProducts [1] cexStoreB).2 = .ok 1 ∧
    lookupA 1 (V2.deleteProducts [1] cexStoreB).1.productsInStock =
      none := by
  have h1 := claim7_deleteProducts.1 [1, 99] witSaleStore (by simp)
    (by decide)
  have h2 := claim7_deleteProducts.2.2.1 [1] cexStoreB (by simp) (by decide)
  exact ⟨h1.1, h1.2.1 1 (by simp), h2.1, h2.2.1 1 (by simp)⟩

end GStore
